import Mathlib

/-!
Verification of the CMAT Task Lifecycle & Workflow Orchestration Engine.

Shallow embedding of the repository's core models and services:
  * `src/core/models/task.py`              — Task, TaskStatus, TaskPriority
  * `src/core/models/step_transition.py`   — StepTransition
  * `src/core/models/workflow_step.py`     — WorkflowStep
  * `src/core/models/workflow_template.py` — WorkflowTemplate
  * `src/core/services/workflow_service.py`— WorkflowService operations

Python `datetime` objects are modelled by their `isoformat()` strings
(the `datetime` module is a standard-library collaborator; `fromisoformat`
is the left inverse of `isoformat`, so both are the identity on the string
model). Python `Optional[str]` is `Option String`; Python truthiness of a
string (`""` and `None` are falsy) is made explicit where the source
relies on it. Dictionaries produced by `to_dict` are modelled by a
JSON-value type `JVal`; `json.dumps`/`json.loads` (std-lib) are treated as
the identity on that model. Raising operations return `Except`/`Option`.
-/

namespace CMAT

/-- JSON-like value, the model of Python dicts produced by `to_dict`. -/
inductive JVal where
  | jnull : JVal
  | jbool : Bool → JVal
  | jint : Int → JVal
  | jstr : String → JVal
  | jarr : List JVal → JVal
  | jobj : List (String × JVal) → JVal

/-- Lookup of a key in a JSON object field list (Python `dict` access). -/
def lookupField : List (String × JVal) → String → Option JVal
  | [], _ => none
  | (k, v) :: rest, key => if k = key then some v else lookupField rest key

/-- `data.get(key)` on a JSON object; `none` when the value is not an object. -/
def JVal.get (j : JVal) (key : String) : Option JVal :=
  match j with
  | .jobj fs => lookupField fs key
  | _ => none

/-- Read a string field value. -/
def JVal.asStr : JVal → Option String
  | .jstr s => some s
  | _ => none

/-- Read a boolean field value. -/
def JVal.asBool : JVal → Option Bool
  | .jbool b => some b
  | _ => none

/-- Read an integer field value. -/
def JVal.asInt : JVal → Option Int
  | .jint n => some n
  | _ => none

/-- Python truthiness of an `Optional[str]`: `None` and `""` are falsy. -/
def strTruthy : Option String → Bool
  | none => false
  | some s => !(s = "")

/-- Python `opt or default` on an `Optional[str]`. -/
def pyOrStr (o : Option String) (d : String) : String :=
  match o with
  | none => d
  | some s => if s = "" then d else s

/-- Model of a Python `datetime`: its naive `isoformat()` string. -/
abbrev DT := String

/-- `str.rstrip("Z")`: remove every trailing `'Z'`. -/
def rstripZ (s : String) : String :=
  ⟨(s.data.reverse.dropWhile (fun c => c = 'Z')).reverse⟩

/-- A string that is a well-formed naive-isoformat image: nonempty and
without a trailing `'Z'` (Python `datetime.isoformat()` never produces
either degenerate shape). -/
def validIso (s : String) : Prop := s ≠ "" ∧ s.data.getLast? ≠ some 'Z'

/-- `TaskStatus` enum — `src/core/models/task.py`. -/
inductive TaskStatus where
  | pending | active | completed | failed | blocked | cancelled
deriving DecidableEq, Repr

/-- `TaskStatus.value`. -/
def TaskStatus.value : TaskStatus → String
  | .pending => "pending"
  | .active => "active"
  | .completed => "completed"
  | .failed => "failed"
  | .blocked => "blocked"
  | .cancelled => "cancelled"

/-- `TaskStatus(value)` enum constructor lookup; `none` models `ValueError`. -/
def TaskStatus.ofValue (s : String) : Option TaskStatus :=
  if s = "pending" then some .pending
  else if s = "active" then some .active
  else if s = "completed" then some .completed
  else if s = "failed" then some .failed
  else if s = "blocked" then some .blocked
  else if s = "cancelled" then some .cancelled
  else none

/-- `TaskPriority` enum — `src/core/models/task.py`. -/
inductive TaskPriority where
  | low | normal | high | critical
deriving DecidableEq, Repr

/-- `TaskPriority.value`. -/
def TaskPriority.value : TaskPriority → String
  | .low => "low"
  | .normal => "normal"
  | .high => "high"
  | .critical => "critical"

/-- `TaskPriority(value)` enum constructor lookup; `none` models `ValueError`. -/
def TaskPriority.ofValue (s : String) : Option TaskPriority :=
  if s = "low" then some .low
  else if s = "normal" then some .normal
  else if s = "high" then some .high
  else if s = "critical" then some .critical
  else none

/-- Modelled from the spec: `TaskMetadata` (its module
`src/core/models/task_metadata.py` is not under `src/`; §3 of the spec
lists workflow context `workflow_name`, `workflow_step`,
`enhancement_title`, execution context handle and session id, cost
fields, a `requested_model` override and learning-reference id lists). -/
structure TaskMetadata where
  workflow_name : Option String := none
  workflow_step : Option Int := none
  enhancement_title : Option String := none
  requested_model : Option String := none
  session_id : Option String := none
  process_id : Option String := none
  cost_usd : Option String := none
  learning_ids : List String := []
deriving DecidableEq, Repr

/-- JSON image of a Python `Optional[str]` value (`None` → `null`). -/
def optStrJ : Option String → JVal
  | none => .jnull
  | some s => .jstr s

/-- JSON image of an optional integer value. -/
def optIntJ : Option Int → JVal
  | none => .jnull
  | some n => .jint n

/-- JSON image of an optional timestamp:
`d.isoformat() + "Z" if d else None`. -/
def optDateJ : Option DT → JVal
  | none => .jnull
  | some d => .jstr (d ++ "Z")

/-- Modelled from the spec: `TaskMetadata.to_dict` — a plain field map
(round-trip persistence per §8). -/
def TaskMetadata.to_dict (m : TaskMetadata) : JVal :=
  .jobj [
    ("workflow_name", optStrJ m.workflow_name),
    ("workflow_step", optIntJ m.workflow_step),
    ("enhancement_title", optStrJ m.enhancement_title),
    ("requested_model", optStrJ m.requested_model),
    ("session_id", optStrJ m.session_id),
    ("process_id", optStrJ m.process_id),
    ("cost_usd", optStrJ m.cost_usd),
    ("learning_ids", .jarr (m.learning_ids.map .jstr))]

/-- Optional-string field read: missing key, `null` and non-strings give `None`. -/
def readOptStr (j : JVal) (key : String) : Option String :=
  match j.get key with
  | some (.jstr s) => some s
  | _ => none

/-- Optional-int field read. -/
def readOptInt (j : JVal) (key : String) : Option Int :=
  match j.get key with
  | some (.jint n) => some n
  | _ => none

/-- Modelled from the spec: `TaskMetadata.from_dict` — total, every field
defaulted when absent. -/
def TaskMetadata.from_dict (j : JVal) : TaskMetadata :=
  { workflow_name := readOptStr j "workflow_name"
    workflow_step := readOptInt j "workflow_step"
    enhancement_title := readOptStr j "enhancement_title"
    requested_model := readOptStr j "requested_model"
    session_id := readOptStr j "session_id"
    process_id := readOptStr j "process_id"
    cost_usd := readOptStr j "cost_usd"
    learning_ids :=
      match j.get "learning_ids" with
      | some (.jarr xs) => xs.filterMap JVal.asStr
      | _ => [] }

/-- `Task` dataclass — `src/core/models/task.py`. -/
structure Task where
  id : String
  title : String
  assigned_agent : String
  priority : TaskPriority
  task_type : String
  description : String
  source_file : String
  created : DT
  status : TaskStatus := .pending
  started : Option DT := none
  completed : Option DT := none
  result : Option String := none
  auto_complete : Bool := false
  auto_chain : Bool := false
  metadata : TaskMetadata := {}
deriving DecidableEq, Repr

/-- `Task.start` — requires `PENDING`, else raises `ValueError` (the raise
precedes every mutation, so an error leaves the task unchanged). -/
def Task.start (t : Task) (now : DT) : Except String Task :=
  if t.status ≠ TaskStatus.pending then
    .error ("Cannot start task in " ++ t.status.value ++ " status")
  else
    .ok { t with status := TaskStatus.active, started := some now }

/-- `Task.complete` — requires `ACTIVE`, else raises `ValueError`. -/
def Task.complete (t : Task) (result : String) (now : DT) : Except String Task :=
  if t.status ≠ TaskStatus.active then
    .error ("Cannot complete task in " ++ t.status.value ++ " status")
  else
    .ok { t with status := TaskStatus.completed, completed := some now,
                 result := some result }

/-- `Task.fail` — no status guard in the source: succeeds from any status. -/
def Task.fail (t : Task) (reason : String) (now : DT) : Task :=
  { t with status := TaskStatus.failed, completed := some now, result := some reason }

/-- `Task.block` — no status guard in the source. -/
def Task.block (t : Task) (reason : String) : Task :=
  { t with status := TaskStatus.blocked, result := some reason }

/-- `Task.cancel` — raises only when the task is `COMPLETED`. -/
def Task.cancel (t : Task) (reason : Option String) (now : DT) : Except String Task :=
  if t.status = TaskStatus.completed then
    .error "Cannot cancel a completed task"
  else
    .ok { t with status := TaskStatus.cancelled, completed := some now, result := reason }

/-- `Task.to_dict` — `src/core/models/task.py`. -/
def Task.to_dict (t : Task) : JVal :=
  .jobj [
    ("id", .jstr t.id),
    ("title", .jstr t.title),
    ("assigned_agent", .jstr t.assigned_agent),
    ("priority", .jstr t.priority.value),
    ("task_type", .jstr t.task_type),
    ("description", .jstr t.description),
    ("source_file", .jstr t.source_file),
    ("created", .jstr (t.created ++ "Z")),
    ("status", .jstr t.status.value),
    ("started", optDateJ t.started),
    ("completed", optDateJ t.completed),
    ("result", optStrJ t.result),
    ("auto_complete", .jbool t.auto_complete),
    ("auto_chain", .jbool t.auto_chain),
    ("metadata", t.metadata.to_dict)]

/-- Optional-timestamp read used for `started`/`completed`:
`datetime.fromisoformat(data[k].rstrip("Z")) if data.get(k) else None`
(`data.get(k)` is truthy only for a non-empty string). -/
def readOptDate (j : JVal) (key : String) : Option DT :=
  match j.get key with
  | some (.jstr s) => if s = "" then none else some (rstripZ s)
  | _ => none

/-- `Task.from_dict` — `src/core/models/task.py`; `none` models the
`KeyError`/`ValueError` raised on missing or malformed required fields. -/
def Task.from_dict (j : JVal) : Option Task := do
  let id ← (j.get "id").bind JVal.asStr
  let title ← (j.get "title").bind JVal.asStr
  let assigned_agent ← (j.get "assigned_agent").bind JVal.asStr
  let priority ← ((j.get "priority").bind JVal.asStr).bind TaskPriority.ofValue
  let task_type ← (j.get "task_type").bind JVal.asStr
  let description ← (j.get "description").bind JVal.asStr
  let source_file ← (j.get "source_file").bind JVal.asStr
  let createdRaw ← (j.get "created").bind JVal.asStr
  let status ← ((j.get "status").bind JVal.asStr).bind TaskStatus.ofValue
  some
    { id := id, title := title, assigned_agent := assigned_agent,
      priority := priority, task_type := task_type, description := description,
      source_file := source_file, created := rstripZ createdRaw, status := status,
      started := readOptDate j "started",
      completed := readOptDate j "completed",
      result := readOptStr j "result",
      auto_complete := ((j.get "auto_complete").bind JVal.asBool).getD false,
      auto_chain := ((j.get "auto_chain").bind JVal.asBool).getD false,
      metadata := TaskMetadata.from_dict ((j.get "metadata").getD (.jobj [])) }

/-- `StepTransition` dataclass — `src/core/models/step_transition.py`. -/
structure StepTransition where
  name : String
  next_step : Option String
  auto_chain : Bool := true
  auto_start : Bool := true
  description : Option String := none
deriving DecidableEq, Repr

/-- `StepTransition.is_halt_status`. -/
def StepTransition.is_halt_status (t : StepTransition) : Bool :=
  !t.auto_chain || t.next_step = none

/-- `StepTransition.to_dict` — `description` is emitted only when truthy
(`if self.description:`), so `None` and `""` are both omitted. -/
def StepTransition.to_dict (t : StepTransition) : JVal :=
  .jobj ([
    ("next_step", optStrJ t.next_step),
    ("auto_chain", .jbool t.auto_chain),
    ("auto_start", .jbool t.auto_start)] ++
    (if strTruthy t.description then
      [("description", .jstr (t.description.getD ""))] else []))

/-- `StepTransition.from_dict` — total: every field is defaulted. -/
def StepTransition.from_dict (name : String) (j : JVal) : StepTransition :=
  { name := name
    next_step := readOptStr j "next_step"
    auto_chain := ((j.get "auto_chain").bind JVal.asBool).getD true
    auto_start := ((j.get "auto_start").bind JVal.asBool).getD true
    description := readOptStr j "description" }

/-- `WorkflowStep` dataclass — `src/core/models/workflow_step.py`;
`on_status` is a `dict[str, StepTransition]`, modelled as an association
list in insertion order. -/
structure WorkflowStep where
  agent : String
  input : String
  required_output : String
  on_status : List (String × StepTransition) := []
  model : Option String := none
deriving DecidableEq, Repr

/-- `WorkflowStep.get_transition` — `self.on_status.get(status_name)`. -/
def WorkflowStep.get_transition (s : WorkflowStep) (status_name : String) :
    Option StepTransition :=
  (s.on_status.find? (fun p => p.1 = status_name)).map (·.2)

/-- `WorkflowStep.should_auto_chain`. -/
def WorkflowStep.should_auto_chain (s : WorkflowStep) (status : String) : Bool :=
  match s.get_transition status with
  | none => false
  | some t => t.auto_chain

/-- `WorkflowStep.to_dict` — `model` is emitted only when truthy. -/
def WorkflowStep.to_dict (s : WorkflowStep) : JVal :=
  .jobj ([
    ("agent", .jstr s.agent),
    ("input", .jstr s.input),
    ("required_output", .jstr s.required_output),
    ("on_status", .jobj (s.on_status.map (fun p => (p.1, p.2.to_dict))))] ++
    (if strTruthy s.model then [("model", .jstr (s.model.getD ""))] else []))

/-- The `on_status` loop of `WorkflowStep.from_dict`: each entry is
rebuilt with its dict key as the transition name. -/
def readTransitions (j : JVal) : List (String × StepTransition) :=
  match j.get "on_status" with
  | some (.jobj fs) => fs.map (fun p => (p.1, StepTransition.from_dict p.1 p.2))
  | _ => []

/-- `WorkflowStep.from_dict` — `agent`/`input`/`required_output` are
required (`KeyError` modelled as `none`). -/
def WorkflowStep.from_dict (j : JVal) : Option WorkflowStep := do
  let agent ← (j.get "agent").bind JVal.asStr
  let input ← (j.get "input").bind JVal.asStr
  let required_output ← (j.get "required_output").bind JVal.asStr
  some
    { agent := agent, input := input, required_output := required_output,
      on_status := readTransitions j, model := readOptStr j "model" }

/-- `WorkflowTemplate` dataclass — `src/core/models/workflow_template.py`. -/
structure WorkflowTemplate where
  id : String
  name : String
  description : String
  steps : List WorkflowStep := []
deriving DecidableEq, Repr

/-- `WorkflowTemplate.get_step` — `if 0 <= index < len(self.steps)`;
the index is a Python `int`, so negative values are in the domain. -/
def WorkflowTemplate.get_step (t : WorkflowTemplate) (index : Int) :
    Option WorkflowStep :=
  if 0 ≤ index ∧ index < t.steps.length then t.steps.get? index.toNat else none

/-- `WorkflowTemplate.get_step_by_agent` — first step with that agent. -/
def WorkflowTemplate.get_step_by_agent (t : WorkflowTemplate) (agent_name : String) :
    Option WorkflowStep :=
  t.steps.find? (fun s => s.agent = agent_name)

/-- `WorkflowTemplate.to_dict` — note: does not include `id`. -/
def WorkflowTemplate.to_dict (t : WorkflowTemplate) : JVal :=
  .jobj [
    ("name", .jstr t.name),
    ("description", .jstr t.description),
    ("steps", .jarr (t.steps.map WorkflowStep.to_dict))]

/-- The steps list of `WorkflowTemplate.from_dict`:
`data.get("steps", [])` parsed step by step. -/
def readSteps (j : JVal) : Option (List WorkflowStep) :=
  match j.get "steps" with
  | some (.jarr xs) => xs.mapM WorkflowStep.from_dict
  | _ => some []

/-- `WorkflowTemplate.from_dict` — `name`/`description` required,
`steps` defaulted to `[]`; any malformed step raises (`none`). -/
def WorkflowTemplate.from_dict (workflow_id : String) (j : JVal) :
    Option WorkflowTemplate := do
  let steps ← readSteps j
  let name ← (j.get "name").bind JVal.asStr
  let description ← (j.get "description").bind JVal.asStr
  some { id := workflow_id, name := name, description := description, steps := steps }

/-- `WorkflowTemplate.to_json` — `json.dumps({self.id: self.to_dict()})`,
modelled at the JSON-value level. -/
def WorkflowTemplate.to_json (t : WorkflowTemplate) : JVal :=
  .jobj [(t.id, t.to_dict)]

/-- `WorkflowTemplate.from_json` — takes the first key of the decoded
object as the workflow id (`IndexError` on an empty object → `none`). -/
def WorkflowTemplate.from_json (j : JVal) : Option WorkflowTemplate :=
  match j with
  | .jobj ((workflow_id, data) :: _) => WorkflowTemplate.from_dict workflow_id data
  | _ => none

/-- The template store: the persisted workflow-templates document
(`workflow_id → template`), modelled as an association list. -/
abbrev Templates := List (String × WorkflowTemplate)

/-- The agent registry (`AgentService`), reduced to the one datum the
orchestration core reads: each agent's `role` string. -/
abbrev Agents := List (String × String)

/-- `WorkflowService.get` — template lookup by id. -/
def WorkflowService.get (ts : Templates) (workflow_id : String) :
    Option WorkflowTemplate :=
  (ts.find? (fun p => p.1 = workflow_id)).map (·.2)

/-- Enumerating agent lookup: `for i, step in enumerate(steps): if step.agent == name: return (i, step)`. -/
def findAgentIdx : List WorkflowStep → String → Nat → Option (Nat × WorkflowStep)
  | [], _, _ => none
  | s :: rest, name, i =>
    if s.agent = name then some (i, s) else findAgentIdx rest name (i + 1)

/-- Core of `WorkflowService.get_next_step` (lines 332–345), acting on the
already-fetched template: transition lookup, Python-truthy `next_step`
check, then first-match agent scan. -/
def getNextStepT (template : WorkflowTemplate) (current_step_index : Int)
    (status : String) : Option (Nat × WorkflowStep) :=
  match template.get_step current_step_index with
  | none => none
  | some current_step =>
    match current_step.get_transition status with
    | none => none
    | some transition =>
      match transition.next_step with
      | none => none
      | some ns => if ns = "" then none else findAgentIdx template.steps ns 0

/-- `WorkflowService.get_next_step` — store-level wrapper. -/
def WorkflowService.get_next_step (ts : Templates) (workflow_id : String)
    (current_step_index : Int) (status : String) : Option (Nat × WorkflowStep) :=
  match WorkflowService.get ts workflow_id with
  | none => none
  | some template => getNextStepT template current_step_index status

/-- `WorkflowService.should_auto_chain`. -/
def WorkflowService.should_auto_chain (ts : Templates) (workflow_id : String)
    (step_index : Int) (status : String) : Bool :=
  match WorkflowService.get ts workflow_id with
  | none => false
  | some template =>
    match template.get_step step_index with
    | none => false
    | some step =>
      match step.get_transition status with
      | none => false
      | some transition => transition.auto_chain

/-- Transition check inside `validate_template`'s step loop: error unless
`next_step` is falsy, already among the seen agent names, or the agent of
a later step (the forward-reference scan). -/
def transitionErrors (i : Nat) (names : List String) (rest : List WorkflowStep)
    (status_name : String) (t : StepTransition) : List String :=
  match t.next_step with
  | none => []
  | some ns =>
    if ns = "" then []
    else if ns ∈ names then []
    else if rest.any (fun s => s.agent = ns) then []
    else ["Step " ++ toString i ++ ": transition '" ++ status_name ++
          "' references unknown agent '" ++ ns ++ "'"]

/-- The per-step loop of `validate_template`: `names` is the incrementally
built `agent_names` set (the current step's agent is added before its
transitions are checked), `rest` the steps after the current one. -/
def validateSteps : Nat → List String → List WorkflowStep → List String
  | _, _, [] => []
  | i, names, step :: rest =>
    let names' := if step.agent = "" then names else step.agent :: names
    (if step.agent = "" then ["Step " ++ toString i ++ ": agent is required"] else []) ++
    (if step.input = "" then ["Step " ++ toString i ++ ": input is required"] else []) ++
    (if step.required_output = "" then
      ["Step " ++ toString i ++ ": required_output is required"] else []) ++
    (step.on_status.map (fun p => transitionErrors i names' rest p.1 p.2)).flatten ++
    validateSteps (i + 1) names' rest

/-- `WorkflowService.validate_template` (lines 368–414). -/
def WorkflowService.validate_template (t : WorkflowTemplate) : List String :=
  (if t.id = "" then ["Workflow ID is required"] else []) ++
  (if t.name = "" then ["Workflow name is required"] else []) ++
  (if t.steps.isEmpty then ["Workflow must have at least one step"] else []) ++
  validateSteps 0 [] t.steps

/-- Python `list.insert(n, x)` for `0 ≤ n ≤ len`. -/
def listInsertAt (l : List WorkflowStep) (n : Nat) (x : WorkflowStep) :
    List WorkflowStep :=
  l.take n ++ x :: l.drop n

/-- `WorkflowService.add_step` (lines 107–130) — in-range index inserts,
everything else (including `None` and out-of-range) appends. -/
def WorkflowService.add_step (ts : Templates) (workflow_id : String)
    (step : WorkflowStep) (index : Option Int) : Option WorkflowTemplate :=
  match WorkflowService.get ts workflow_id with
  | none => none
  | some template =>
    let steps' :=
      match index with
      | some i =>
        if 0 ≤ i ∧ i ≤ template.steps.length then
          listInsertAt template.steps i.toNat step
        else template.steps ++ [step]
      | none => template.steps ++ [step]
    some { template with steps := steps' }

/-- Python `pat in s` substring test. -/
def strContains (s pat : String) : Bool := (s.splitOn pat).length ≠ 1

/-- `WorkflowService.resolve_input_path`. -/
def WorkflowService.resolve_input_path (step : WorkflowStep)
    (enhancement_name : String) (previous_agent : Option String) : String :=
  let input_path := step.input.replace "{enhancement_name}" enhancement_name
  if strContains input_path "{previous_step}" && strTruthy previous_agent then
    input_path.replace "{previous_step}"
      ("enhancements/" ++ enhancement_name ++ "/" ++ previous_agent.getD "")
  else input_path

/-- The role-to-task-type map of `get_task_type_for_agent`. -/
def roleMap : List (String × String) :=
  [("analyst", "analysis"), ("requirements-analyst", "analysis"),
   ("product-analyst", "analysis"), ("architect", "technical_analysis"),
   ("implementer", "implementation"), ("tester", "testing"),
   ("documenter", "documentation"), ("integration", "integration")]

/-- `WorkflowService.get_task_type_for_agent`. -/
def WorkflowService.get_task_type_for_agent (agents : Agents)
    (agent_name : String) : String :=
  match (agents.find? (fun p => p.1 = agent_name)).map (·.2) with
  | none => "analysis"
  | some role =>
    ((roleMap.find? (fun p => p.1 = role.toLower)).map (·.2)).getD "analysis"

/-- One logged event: `log_operation kind msg` or `log_error msg` (a raised
exception is also recorded as an error event). -/
inductive LogEntry where
  | op (kind : String) (msg : String)
  | error (msg : String)
deriving DecidableEq, Repr

/-- Whether a log entry is an error. -/
def LogEntry.isError : LogEntry → Bool
  | .op _ _ => false
  | .error _ => true

/-- The argument record of the `queue_service.add` call inside
`auto_chain` — the successor task it creates. -/
structure NewTaskSpec where
  title : String
  assigned_agent : String
  task_type : String
  source_file : String
  description : String
  workflow_name : String
  workflow_step : Nat
  enhancement_title : Option String
  requested_model : Option String
  auto_chain : Bool
deriving DecidableEq, Repr

/-- Result of one `auto_chain` call: the successor task created (if any)
and the events logged. -/
structure ChainOutcome where
  next : Option NewTaskSpec
  logs : List LogEntry
deriving DecidableEq, Repr

/-- `WorkflowService.auto_chain` (lines 590–679). The task-store fetch
`queue_service.get(task_id)` is replaced by passing the task itself; the
`queue_service.add` effect is modelled by returning the created
`NewTaskSpec`. `if not workflow_name or step_index is None` uses Python
truthiness, so an empty workflow name also stops the chain. -/
def WorkflowService.auto_chain (ts : Templates) (agents : Agents)
    (task : Task) (task_id : String) (status : String) : ChainOutcome :=
  if task.auto_chain = false then
    ⟨none, [.op "AUTO_CHAIN_SKIP" ("Task " ++ task_id ++ ": auto_chain disabled")]⟩
  else
    match task.metadata.workflow_name, task.metadata.workflow_step with
    | some workflow_name, some step_index =>
      if workflow_name = "" then ⟨none, []⟩
      else if WorkflowService.should_auto_chain ts workflow_name step_index status
                = false then
        ⟨none, [.op "AUTO_CHAIN_STOP"
          ("Task " ++ task_id ++ ": transition for '" ++ status ++
           "' has auto_chain=false")]⟩
      else
        match WorkflowService.get_next_step ts workflow_name step_index status with
        | none =>
          ⟨none, [.op "WORKFLOW_COMPLETE"
            ("Workflow " ++ workflow_name ++ " completed at step " ++
             toString step_index ++ " with status " ++ status)]⟩
        | some (next_step_index, next_step) =>
          match WorkflowService.get ts workflow_name with
          | none => ⟨none, [.error "AttributeError: template is None"]⟩
          | some template =>
            let previous_agent :=
              (template.get_step step_index).map (·.agent)
            match task.metadata.enhancement_title with
            | none => ⟨none, [.error "TypeError: enhancement_title is None"]⟩
            | some enhancement_name =>
              let input_path := WorkflowService.resolve_input_path next_step
                enhancement_name previous_agent
              let task_type := WorkflowService.get_task_type_for_agent agents
                next_step.agent
              ⟨some
                { title := workflow_name ++ ": " ++ next_step.agent,
                  assigned_agent := next_step.agent,
                  task_type := task_type,
                  source_file := input_path,
                  description := "Execute " ++ next_step.agent ++ " for " ++
                    enhancement_name,
                  workflow_name := workflow_name,
                  workflow_step := next_step_index,
                  enhancement_title := some enhancement_name,
                  requested_model := next_step.model,
                  auto_chain := task.auto_chain },
               [.op "AUTO_CHAIN"
                 ("Chained from " ++ task_id ++ " to " ++ next_step.agent)]⟩
    | _, _ => ⟨none, []⟩

/-- Result of the Execution Boundary (`task_service.execute`): exit
outcome, extracted status and log reference. -/
structure ExecutionResult where
  success : Bool
  status : Option String
  exit_code : Int
  log_file : Option String
deriving DecidableEq, Repr

/-- The terminal action `run_task` takes on the task. -/
inductive TaskAction where
  | completedWith (status : String) (chains : Bool)
  | failedWith (reason : String)
deriving DecidableEq, Repr

/-- The complete-or-fail decision of `WorkflowService.run_task`
(lines 739–749): `if result.success and result.status:` completes (and
chains when `task.auto_chain`); otherwise fails with
`result.status or "Execution failed with exit code {exit_code}"`. -/
def runTaskOutcome (task : Task) (result : ExecutionResult) : TaskAction :=
  if result.success && strTruthy result.status then
    .completedWith (result.status.getD "") task.auto_chain
  else
    .failedWith (pyOrStr result.status
      ("Execution failed with exit code " ++ toString result.exit_code))

/-- Split a character list at a separator character (used for the
line and token structure of the extractor's input). -/
def splitOnChar (sep : Char) : List Char → List (List Char)
  | [] => [[]]
  | c :: rest =>
    let r := splitOnChar sep rest
    if c = sep then [] :: r
    else
      match r with
      | [] => [[c]]
      | l :: ls => (c :: l) :: ls

/-- Whitespace for trimming. -/
def isWS (c : Char) : Bool := c = ' ' || c = '\t' || c = '\r'

/-- Trim both ends of a line. -/
def trimC (cs : List Char) : List Char :=
  ((cs.dropWhile isWS).reverse.dropWhile isWS).reverse

/-- Modelled from the spec: the Status Extractor's trailing window —
only the last 5,000 characters are examined (§4.2). -/
def trailingWindow (cs : List Char) : List Char := cs.drop (cs.length - 5000)

/-- A fence line opening or closing a trailer block. -/
def isFenceC (cs : List Char) : Bool := "```".data.isPrefixOf (trimC cs)

/-- `fld:`-field recognition on a line: when the trimmed line starts with
the field label and a colon, return the remainder of the line, trimmed. -/
def fieldValueC (cs : List Char) (fld : String) : Option (List Char) :=
  let t := trimC cs
  let p := fld.data ++ [':']
  if p.isPrefixOf t then some (trimC (t.drop p.length)) else none

/-- Modelled from the spec: group the lines enclosed between fence lines
into candidate trailer blocks. -/
def scanBlocksAux : List (List Char) → Option (List (List Char)) →
    List (List (List Char))
  | [], _ => []
  | l :: rest, none =>
    if isFenceC l then scanBlocksAux rest (some [])
    else scanBlocksAux rest none
  | l :: rest, some acc =>
    if isFenceC l then acc.reverse :: scanBlocksAux rest none
    else scanBlocksAux rest (some (l :: acc))

/-- Skip lines until one carries the given field; return the lines after it. -/
def findFieldC : List (List Char) → String → Option (List (List Char))
  | [], _ => none
  | l :: rest, fld =>
    if (fieldValueC l fld).isSome then some rest else findFieldC rest fld

/-- First `status:` field value among the lines. -/
def findStatusValueC : List (List Char) → Option (List Char)
  | [] => none
  | l :: rest =>
    match fieldValueC l "status" with
    | some v => some v
    | none => findStatusValueC rest

/-- Modelled from the spec: a block is well formed when it carries, in
order, an `agent:` field, a `task_id:` field and a `status:` field; its
status is the remainder of the `status:` line (§4.2 step 1). -/
def blockStatus (ls : List (List Char)) : Option String := do
  let r1 ← findFieldC ls "agent"
  let r2 ← findFieldC r1 "task_id"
  let v ← findStatusValueC r2
  some ⟨v⟩

/-- The statuses of the well-formed trailer blocks, in order of appearance. -/
def wellFormedStatuses (lines : List (List Char)) : List String :=
  (scanBlocksAux lines none).filterMap blockStatus

/-- Legacy "ready-for-X" family: a token `READY_FOR_<something>`. -/
def isReadyToken (t : List Char) : Bool :=
  "READY_FOR_".data.isPrefixOf t && decide ("READY_FOR_".data.length < t.length)

/-- Legacy "X-complete" family: a token `<something>_COMPLETE`. -/
def isCompleteToken (t : List Char) : Bool :=
  "_COMPLETE".data.isSuffixOf t && decide ("_COMPLETE".data.length < t.length)

/-- Legacy "category: detail" halt families. -/
def haltKinds : List String := ["BLOCKED", "ERROR", "NEEDS_CLARIFICATION"]

/-- Modelled from the spec: matches of the fixed legacy pattern set on one
line, in positional order — a halt match covers the whole trimmed line;
token matches follow in token order (§4.2 step 2). -/
def lineMatchesC (l : List Char) : List String :=
  let t := trimC l
  (if haltKinds.any (fun k => (k.data ++ [':']).isPrefixOf t) then
    [(⟨t⟩ : String)] else []) ++
  (((splitOnChar ' ' t).filter
    (fun tk => isReadyToken tk || isCompleteToken tk)).map (fun tk => (⟨tk⟩ : String)))

/-- All legacy matches of all patterns, in their order of appearance. -/
def legacyMatches (lines : List (List Char)) : List String :=
  (lines.map lineMatchesC).flatten

/-- Scan that keeps only the most recent match seen. -/
def lastSeen (l : List String) : Option String :=
  l.foldl (fun _ s => some s) none

/-- Two-tier preference: a primary result, else the fallback. -/
def preferBlock (blockLast legacyLast : Option String) : Option String :=
  match blockLast with
  | some s => some s
  | none => legacyLast

/-- Modelled from the spec: the Status Extractor (§4.2; its code —
`task_service`'s extraction routine — is not under `src/`): inside the
trailing window, prefer the most recent well-formed trailer-block status;
otherwise the most recent legacy-pattern match; otherwise none. -/
def extract_status (raw : String) : Option String :=
  let lines := splitOnChar '\n' (trailingWindow raw.data)
  preferBlock (lastSeen (wellFormedStatuses lines)) (lastSeen (legacyMatches lines))

/-- Modelled from the spec: queue `add` (`QueueService.add` is not under
`src/`) — "new Task in `pending`" (§4.1); the remaining fields take the
dataclass defaults of `src/core/models/task.py`. -/
def addTask (id title agent : String) (priority : TaskPriority)
    (ttype desc src : String) (created : DT) : Task :=
  { id := id
    title := title
    assigned_agent := agent
    priority := priority
    task_type := ttype
    description := desc
    source_file := src
    created := created }

/-- A sample freshly created (pending) task, used by concrete witnesses. -/
def sampleTask : Task :=
  addTask "T1" "feature: architect" "architect" TaskPriority.normal
    "analysis" "analyze the enhancement" "enhancements/demo/spec.md"
    "2024-01-01T00:00:00"

/-- Claim C5: a freshly added task is `pending`; `start` is accepted from
`pending` and sets `active` with a started timestamp; `complete(result)`
is accepted from `active` and sets `completed`, stamps the completion
time, and stores exactly the given result string. -/
theorem task_add_start_complete (id title agent : String) (priority : TaskPriority)
    (ttype desc src : String) (created now now2 : DT) (res : String) :
    (addTask id title agent priority ttype desc src created).status
        = TaskStatus.pending ∧
    ∃ T₁, (addTask id title agent priority ttype desc src created).start now
        = Except.ok T₁ ∧
      T₁.status = TaskStatus.active ∧ T₁.started = some now ∧
      ∃ T₂, T₁.complete res now2 = Except.ok T₂ ∧
        T₂.status = TaskStatus.completed ∧ T₂.completed = some now2 ∧
        T₂.result = some res := by
  refine ⟨rfl, ?_⟩
  refine ⟨{ addTask id title agent priority ttype desc src created with
      status := TaskStatus.active
      started := some now }, ?_, rfl, rfl, ?_⟩
  · simp [addTask, Task.start]
  · refine ⟨{ addTask id title agent priority ttype desc src created with
      status := TaskStatus.completed
      started := some now
      completed := some now2
      result := some res }, ?_, rfl, rfl, rfl⟩
    simp [Task.complete]

/-- Claim C9: `WorkflowTemplate.get_step` returns the step at the index
exactly when `0 ≤ index < len(steps)`, and `None` for every other integer
index; it is total (never raises). -/
theorem get_step_total (t : WorkflowTemplate) (index : Int) :
    (0 ≤ index ∧ index < t.steps.length →
      ∃ s, t.get_step index = some s ∧ t.steps.get? index.toNat = some s) ∧
    (¬(0 ≤ index ∧ index < t.steps.length) → t.get_step index = none) := by
  constructor
  · intro h
    have hlt : index.toNat < t.steps.length := by
      omega
    refine ⟨t.steps.get ⟨index.toNat, hlt⟩, ?_, ?_⟩
    · rw [WorkflowTemplate.get_step, if_pos h]
      exact List.get?_eq_get hlt
    · exact List.get?_eq_get hlt
  · intro h
    rw [WorkflowTemplate.get_step, if_neg h]

/-- A sample one-step workflow template used by concrete witnesses. -/
def stepA : WorkflowStep := { agent := "a", input := "i", required_output := "o" }

/-- A step to add in the `add_step` witness. -/
def stepZ : WorkflowStep := { agent := "z", input := "zi", required_output := "zo" }

/-- A sample workflow template holding only `stepA`. -/
def wTemplate : WorkflowTemplate :=
  { id := "w", name := "n", description := "d", steps := [stepA] }

/-- A sample template store holding `wTemplate` under id `"w"`. -/
def wStore : Templates := [("w", wTemplate)]

/-- Claim C9 witness at a concrete template and indices. -/
theorem get_step_total_witness :
    (0 ≤ (0 : Int) ∧ (0 : Int) < wTemplate.steps.length) ∧
    (∃ s, wTemplate.get_step 0 = some s) ∧
    wTemplate.get_step (-1) = none := by
  have h1 := (get_step_total wTemplate 0).1 (by decide)
  have h2 := (get_step_total wTemplate (-1)).2 (by decide)
  exact ⟨by decide, ⟨h1.choose, h1.choose_spec.1⟩, h2⟩

/-- Claim C10: `WorkflowService.add_step` appends when the index is `None`
or outside `[0, len(steps)]`, and inserts at exactly the given position
(shifting later steps) when the index is inside that range. -/
theorem add_step_spec (ts : Templates) (wid : String) (step : WorkflowStep)
    (index : Option Int) (template : WorkflowTemplate)
    (hget : WorkflowService.get ts wid = some template) :
    (index = none → WorkflowService.add_step ts wid step index =
        some { template with steps := template.steps ++ [step] }) ∧
    (∀ i, index = some i → ¬(0 ≤ i ∧ i ≤ template.steps.length) →
      WorkflowService.add_step ts wid step index =
        some { template with steps := template.steps ++ [step] }) ∧
    (∀ i, index = some i → 0 ≤ i ∧ i ≤ template.steps.length →
      WorkflowService.add_step ts wid step index =
        some { template with steps :=
          template.steps.take i.toNat ++ step :: template.steps.drop i.toNat }) := by
  refine ⟨?_, ?_, ?_⟩
  · intro h
    subst h
    simp [WorkflowService.add_step, hget]
  · intro i h hrange
    subst h
    simp [WorkflowService.add_step, hget, hrange]
  · intro i h hrange
    subst h
    simp [WorkflowService.add_step, hget, hrange, listInsertAt]

/-- Claim C10 witness: appending via an out-of-range index and inserting
via an in-range one, at a concrete stored workflow. -/
theorem add_step_spec_witness :
    (WorkflowService.get wStore "w" = some wTemplate) ∧
    WorkflowService.add_step wStore "w" stepZ (some 9)
      = some { wTemplate with steps := [stepA, stepZ] } ∧
    WorkflowService.add_step wStore "w" stepZ (some 0)
      = some { wTemplate with steps := [stepZ, stepA] } := by
  have h := add_step_spec wStore "w" stepZ (some 9) wTemplate (by decide)
  have h0 := add_step_spec wStore "w" stepZ (some 0) wTemplate (by decide)
  refine ⟨by decide, ?_, ?_⟩
  · have := h.2.1 9 rfl (by decide)
    simpa [wTemplate] using this
  · have := h0.2.2 0 rfl (by decide)
    simpa [wTemplate] using this

/-- Claim C3: `run_task` fails the task whenever execution was
unsuccessful or no (non-empty) completion status was extracted, with the
extracted status as the reason when one exists and a generated
execution-failure description otherwise; it completes the task — and only
then passes the task's `auto_chain` flag on to chaining — exactly when
execution succeeded and a status was extracted. "A status was extracted"
is the source's own `result.status` truthiness: a non-`None`, non-empty
string. -/
theorem run_task_fail_semantics (task : Task) (result : ExecutionResult) :
    ((result.success = false ∨ strTruthy result.status = false) →
      runTaskOutcome task result = TaskAction.failedWith
        (pyOrStr result.status
          ("Execution failed with exit code " ++ toString result.exit_code))) ∧
    (∀ s, result.status = some s → s ≠ "" → result.success = false →
      runTaskOutcome task result = TaskAction.failedWith s) ∧
    ((result.status = none ∨ result.status = some "") →
      runTaskOutcome task result = TaskAction.failedWith
        ("Execution failed with exit code " ++ toString result.exit_code)) ∧
    (∀ s, result.success = true → result.status = some s → s ≠ "" →
      runTaskOutcome task result = TaskAction.completedWith s task.auto_chain) ∧
    ((∃ s c, runTaskOutcome task result = TaskAction.completedWith s c) ↔
      (result.success = true ∧ strTruthy result.status = true)) := by
  rcases result with ⟨succ, st, ec, lf⟩
  cases succ <;> rcases st with _ | s
  · simp [runTaskOutcome, strTruthy, pyOrStr]
  · by_cases hs : s = "" <;>
      simp [runTaskOutcome, strTruthy, pyOrStr, hs]
  · simp [runTaskOutcome, strTruthy, pyOrStr]
  · by_cases hs : s = "" <;>
      simp [runTaskOutcome, strTruthy, pyOrStr, hs]

/-- Claim C3 witness: the three outcome shapes at concrete execution
results. -/
theorem run_task_fail_semantics_witness :
    runTaskOutcome sampleTask ⟨false, some "BLOCKED: x", 2, none⟩
      = TaskAction.failedWith "BLOCKED: x" ∧
    runTaskOutcome sampleTask ⟨true, none, 0, none⟩
      = TaskAction.failedWith "Execution failed with exit code 0" ∧
    runTaskOutcome sampleTask ⟨true, some "DONE", 0, none⟩
      = TaskAction.completedWith "DONE" sampleTask.auto_chain := by
  refine ⟨?_, ?_, ?_⟩
  · exact (run_task_fail_semantics sampleTask ⟨false, some "BLOCKED: x", 2, none⟩).2.1
      "BLOCKED: x" rfl (by decide) rfl
  · exact (run_task_fail_semantics sampleTask ⟨true, none, 0, none⟩).2.2.1
      (Or.inl rfl)
  · exact (run_task_fail_semantics sampleTask ⟨true, some "DONE", 0, none⟩).2.2.2.1
      "DONE" rfl rfl (by decide)

/-- Claim C2: when the originating step's transition for the completion
status has `auto_chain = false`, `auto_chain` creates no successor task
and returns `None`, whatever the task's own `auto_chain` flag is, and
every event it logs is an operation log, not an error. -/
theorem auto_chain_halt (ts : Templates) (agents : Agents) (task : Task)
    (task_id status wname : String) (idx : Int) (template : WorkflowTemplate)
    (step : WorkflowStep) (tr : StepTransition)
    (hw : task.metadata.workflow_name = some wname)
    (hi : task.metadata.workflow_step = some idx)
    (hg : WorkflowService.get ts wname = some template)
    (hs : template.get_step idx = some step)
    (ht : step.get_transition status = some tr)
    (hac : tr.auto_chain = false) :
    (WorkflowService.auto_chain ts agents task task_id status).next = none ∧
    ∀ l ∈ (WorkflowService.auto_chain ts agents task task_id status).logs,
      l.isError = false := by
  have hsac : WorkflowService.should_auto_chain ts wname idx status = false := by
    simp [WorkflowService.should_auto_chain, hg, hs, ht, hac]
  unfold WorkflowService.auto_chain
  cases hta : task.auto_chain
  · simp [LogEntry.isError]
  · by_cases hwe : wname = "" <;>
      simp [hw, hi, hwe, hsac, LogEntry.isError]

/-- A halt transition: `auto_chain=false` with a named next step. -/
def haltTransition : StepTransition :=
  { name := "NEEDS_REVIEW", next_step := some "b", auto_chain := false }

/-- A step whose only transition is the halt transition. -/
def haltStep : WorkflowStep :=
  { agent := "a", input := "i", required_output := "o"
    on_status := [("NEEDS_REVIEW", haltTransition)] }

/-- A two-step template whose first step halts on `NEEDS_REVIEW`. -/
def haltTemplate : WorkflowTemplate :=
  { id := "w", name := "n", description := "d"
    steps := [haltStep, { haltStep with agent := "b" }] }

/-- Store holding the halting template. -/
def haltStore : Templates := [("w", haltTemplate)]

/-- A task at step 0 of the halting workflow, with its own `auto_chain`
flag set. -/
def haltTask : Task :=
  { sampleTask with
    auto_chain := true
    metadata := { workflow_name := some "w"
                  workflow_step := some 0
                  enhancement_title := some "enh" } }

/-- Claim C2 witness: a concrete halted chain — the transition's
`auto_chain` is false, the task's own flag is true, and no successor is
produced. -/
theorem auto_chain_halt_witness :
    (haltTask.metadata.workflow_name = some "w" ∧
     haltTask.metadata.workflow_step = some 0 ∧
     haltTask.auto_chain = true ∧
     WorkflowService.get haltStore "w" = some haltTemplate ∧
     haltTemplate.get_step 0 = some haltStep ∧
     haltStep.get_transition "NEEDS_REVIEW" = some haltTransition ∧
     haltTransition.auto_chain = false) ∧
    (WorkflowService.auto_chain haltStore [] haltTask "T1" "NEEDS_REVIEW").next
      = none ∧
    ∀ l ∈ (WorkflowService.auto_chain haltStore [] haltTask "T1" "NEEDS_REVIEW").logs,
      l.isError = false := by
  have h := auto_chain_halt haltStore [] haltTask "T1" "NEEDS_REVIEW" "w" 0
    haltTemplate haltStep haltTransition (by decide) (by decide) (by decide)
    (by decide) (by decide) (by decide)
  exact ⟨by decide, h.1, h.2⟩

/-- Claim C1 (amended): `start` succeeds exactly from `pending` and
`complete` exactly from `active`, each stamping and updating as claimed;
but `fail` is accepted from every status and `cancel` from every status
except `completed`. A rejected operation raises before any mutation, so
the task is unchanged. -/
theorem task_lifecycle_amended (t : Task) (now : DT) (r : String)
    (reason : Option String) :
    ((∃ t', t.start now = Except.ok t') ↔ t.status = TaskStatus.pending) ∧
    (t.status = TaskStatus.pending →
      t.start now = Except.ok { t with status := TaskStatus.active
                                       started := some now }) ∧
    ((∃ t', t.complete r now = Except.ok t') ↔ t.status = TaskStatus.active) ∧
    (t.status = TaskStatus.active →
      t.complete r now = Except.ok { t with status := TaskStatus.completed
                                            completed := some now
                                            result := some r }) ∧
    ((∃ t', t.cancel reason now = Except.ok t') ↔ t.status ≠ TaskStatus.completed) ∧
    (t.status ≠ TaskStatus.completed →
      t.cancel reason now = Except.ok { t with status := TaskStatus.cancelled
                                               completed := some now
                                               result := reason }) ∧
    t.fail r now = { t with status := TaskStatus.failed
                            completed := some now
                            result := some r } := by
  cases h : t.status <;>
    simp [Task.start, Task.complete, Task.cancel, Task.fail, h]

/-- Claim C1 counterexample: `fail` attempted on a `pending` task — an
edge absent from the §4.1 state machine — succeeds and changes the task's
status and result rather than being rejected. -/
theorem task_lifecycle_counterexample :
    sampleTask.status = TaskStatus.pending ∧
    (sampleTask.fail "boom" "2024-01-01T01:00:00").status = TaskStatus.failed ∧
    (sampleTask.fail "boom" "2024-01-01T01:00:00").result = some "boom" :=
  ⟨rfl, rfl, rfl⟩

/-- Claim C1 witness: the amended lifecycle at concrete tasks — a pending
task starts, and cancel succeeds from `failed` (which §4.1 would forbid). -/
theorem task_lifecycle_amended_witness :
    sampleTask.start "2024-01-01T00:01:00"
      = Except.ok { sampleTask with status := TaskStatus.active
                                    started := some "2024-01-01T00:01:00" } ∧
    ({ sampleTask with status := TaskStatus.failed } : Task).cancel (some "c")
        "2024-01-02T00:00:00"
      = Except.ok { sampleTask with status := TaskStatus.cancelled
                                    completed := some "2024-01-02T00:00:00"
                                    result := some "c" } := by
  refine ⟨(task_lifecycle_amended sampleTask "2024-01-01T00:01:00" "r" none).2.1 rfl,
    ?_⟩
  exact (task_lifecycle_amended { sampleTask with status := TaskStatus.failed }
    "2024-01-02T00:00:00" "r" (some "c")).2.2.2.2.2.1 (by decide)

/-- When some step carries the agent, the enumerating scan finds the first
one, reporting its position offset by the starting counter. -/
theorem findAgentIdx_first (steps : List WorkflowStep) (a : String) (k : Nat)
    (hex : ∃ s ∈ steps, s.agent = a) :
    ∃ j s, findAgentIdx steps a k = some (k + j, s) ∧ steps.get? j = some s ∧
      s.agent = a ∧ ∀ m, m < j → ∀ s₂, steps.get? m = some s₂ → s₂.agent ≠ a := by
  induction steps generalizing k with
  | nil => simp at hex
  | cons hd tl ih =>
    by_cases h : hd.agent = a
    · refine ⟨0, hd, ?_, rfl, h, ?_⟩
      · simp [findAgentIdx, h]
      · intro m hm
        exact absurd hm (Nat.not_lt_zero m)
    · obtain ⟨s, hs, ha⟩ := hex
      have hstl : s ∈ tl := by
        rcases List.mem_cons.mp hs with hs | hs
        · exact absurd (hs ▸ ha) h
        · exact hs
      obtain ⟨j, s', hfind, hget, hag, hmin⟩ := ih (k + 1) ⟨s, hstl, ha⟩
      refine ⟨j + 1, s', ?_, hget, hag, ?_⟩
      · rw [findAgentIdx, if_neg h, hfind]
        have harith : k + 1 + j = k + (j + 1) := by omega
        rw [harith]
      · intro m hm s₂ hg₂
        match m, hg₂ with
        | 0, hg₂ =>
          intro hag₂
          exact h (by simpa [← Option.some_inj.mp hg₂] using hag₂)
        | m + 1, hg₂ => exact hmin m (by omega) s₂ hg₂

/-- When no step carries the agent, the scan returns `none`. -/
theorem findAgentIdx_none (steps : List WorkflowStep) (a : String) (k : Nat)
    (hna : ∀ s ∈ steps, s.agent ≠ a) : findAgentIdx steps a k = none := by
  induction steps generalizing k with
  | nil => rfl
  | cons hd tl ih =>
    rw [findAgentIdx, if_neg (hna hd (by simp))]
    exact ih (k + 1) (fun s hs => hna s (by simp [hs]))

/-- Claim C7 (amended): when the current step's transition for the status
names a non-null, *non-empty* `next_step` agent carried by some step,
`get_next_step` returns the first step (in list order, wherever it lies)
whose agent equals that name, with its index; it returns `None` when the
transition is absent, its `next_step` is null or the empty string, or no
step carries the agent. -/
theorem get_next_step_spec (template : WorkflowTemplate) (idx : Int)
    (status : String) :
    (∀ step tr a, template.get_step idx = some step →
      step.get_transition status = some tr → tr.next_step = some a → a ≠ "" →
      (∃ s' ∈ template.steps, s'.agent = a) →
      ∃ i s, getNextStepT template idx status = some (i, s) ∧
        template.steps.get? i = some s ∧ s.agent = a ∧
        ∀ j, j < i → ∀ s₂, template.steps.get? j = some s₂ → s₂.agent ≠ a) ∧
    (∀ step, template.get_step idx = some step →
      step.get_transition status = none → getNextStepT template idx status = none) ∧
    (∀ step tr, template.get_step idx = some step →
      step.get_transition status = some tr →
      (tr.next_step = none ∨ tr.next_step = some "") →
      getNextStepT template idx status = none) ∧
    (∀ step tr a, template.get_step idx = some step →
      step.get_transition status = some tr → tr.next_step = some a →
      (∀ s ∈ template.steps, s.agent ≠ a) →
      getNextStepT template idx status = none) := by
  refine ⟨?_, ?_, ?_, ?_⟩
  · intro step tr a hstep htr hns hne hex
    obtain ⟨j, s, hfind, hget, hag, hmin⟩ := findAgentIdx_first template.steps a 0 hex
    refine ⟨j, s, ?_, hget, hag, hmin⟩
    simp only [getNextStepT, hstep, htr, hns, if_neg hne]
    simpa using hfind
  · intro step hstep htr
    simp only [getNextStepT, hstep, htr]
  · intro step tr hstep htr hns
    rcases hns with hns | hns <;>
      simp [getNextStepT, hstep, htr, hns]
  · intro step tr a hstep htr hns hna
    simp only [getNextStepT, hstep, htr, hns]
    by_cases hne : a = ""
    · rw [if_pos hne]
    · rw [if_neg hne]
      exact findAgentIdx_none template.steps a 0 hna

/-- A transition whose `next_step` is the empty string (non-null). -/
def emptyNextTransition : StepTransition := { name := "S", next_step := some "" }

/-- A step whose agent name is the empty string and whose only transition
points at the empty-string agent. -/
def emptyAgentStep : WorkflowStep :=
  { agent := "", input := "i", required_output := "o"
    on_status := [("S", emptyNextTransition)] }

/-- A template containing only the empty-agent step. -/
def emptyAgentTemplate : WorkflowTemplate :=
  { id := "w", name := "n", description := "d", steps := [emptyAgentStep] }

/-- Claim C7 counterexample: the transition's `next_step` is non-null
(`some ""`) and step 0's agent equals it, yet `get_next_step` returns
`None` instead of that step — Python truthiness treats the empty string
like null. -/
theorem get_next_step_counterexample :
    emptyAgentTemplate.get_step 0 = some emptyAgentStep ∧
    emptyAgentStep.get_transition "S" = some emptyNextTransition ∧
    emptyNextTransition.next_step = some "" ∧
    (∃ s ∈ emptyAgentTemplate.steps, s.agent = "") ∧
    getNextStepT emptyAgentTemplate 0 "S" = none := by
  decide

/-- Claim C7 witness: the amended lookup at a concrete template — a
forward reference resolves to index 1, and an unknown status gives `None`. -/
theorem get_next_step_spec_witness :
    (∃ i s, getNextStepT haltTemplate 0 "NEEDS_REVIEW" = some (i, s) ∧
      haltTemplate.steps.get? i = some s ∧ s.agent = "b" ∧
      ∀ j, j < i → ∀ s₂, haltTemplate.steps.get? j = some s₂ → s₂.agent ≠ "b") ∧
    getNextStepT haltTemplate 0 "OTHER" = none := by
  constructor
  · exact (get_next_step_spec haltTemplate 0 "NEEDS_REVIEW").1 haltStep
      haltTransition "b" (by decide) (by decide) (by decide) (by decide) (by decide)
  · exact (get_next_step_spec haltTemplate 0 "OTHER").2.1 haltStep
      (by decide) (by decide)

/-- The keep-the-latest scan over a list, started from any accumulator,
yields the last element when one exists, else the accumulator. -/
theorem foldl_keep_last (l : List String) : ∀ acc : Option String,
    l.foldl (fun _ s => some s) acc = l.getLast?.or acc := by
  induction l with
  | nil => intro acc; rfl
  | cons hd tl ih =>
    intro acc
    rw [List.foldl_cons, ih (some hd)]
    cases htl : tl with
    | nil => rfl
    | cons h2 t2 =>
      rw [List.getLast?_cons_cons]
      have hs : ∃ x, (h2 :: t2).getLast? = some x := by
        have := (List.getLast?_isSome (l := h2 :: t2)).mpr (by simp)
        exact Option.isSome_iff_exists.mp this
      obtain ⟨x, hx⟩ := hs
      rw [hx]
      rfl

/-- `lastSeen` returns exactly the positionally last element. -/
theorem lastSeen_eq_getLast (l : List String) : lastSeen l = l.getLast? := by
  rw [lastSeen, foldl_keep_last]
  exact Option.or_none

/-- Claim C4: over the trailing window, the extractor returns the status
of the positionally last well-formed trailer block when one exists; with
no well-formed block it returns the positionally last legacy-pattern
match across all patterns; and with neither it returns none. -/
theorem extractor_last_match (raw : String) :
    (wellFormedStatuses (splitOnChar '\n' (trailingWindow raw.data)) ≠ [] →
      extract_status raw =
        (wellFormedStatuses (splitOnChar '\n' (trailingWindow raw.data))).getLast?) ∧
    (wellFormedStatuses (splitOnChar '\n' (trailingWindow raw.data)) = [] →
      extract_status raw =
        (legacyMatches (splitOnChar '\n' (trailingWindow raw.data))).getLast?) ∧
    (wellFormedStatuses (splitOnChar '\n' (trailingWindow raw.data)) = [] →
      legacyMatches (splitOnChar '\n' (trailingWindow raw.data)) = [] →
      extract_status raw = none) := by
  have hre : extract_status raw =
      preferBlock
        (lastSeen (wellFormedStatuses (splitOnChar '\n' (trailingWindow raw.data))))
        (lastSeen (legacyMatches (splitOnChar '\n' (trailingWindow raw.data)))) :=
    rfl
  refine ⟨?_, ?_, ?_⟩
  · intro h
    obtain ⟨x, hx⟩ := Option.isSome_iff_exists.mp
      ((List.getLast?_isSome).mpr h)
    rw [hre, lastSeen_eq_getLast, hx, preferBlock]
  · intro h
    rw [hre, lastSeen_eq_getLast, lastSeen_eq_getLast, h, List.getLast?_nil,
      preferBlock]
  · intro h h2
    rw [hre, lastSeen_eq_getLast, lastSeen_eq_getLast, h, h2, List.getLast?_nil,
      preferBlock]

/-- Agent output ending in two well-formed trailer blocks with different
statuses. -/
def twoBlockOutput : String :=
  "noise\n```\nagent: architect\ntask_id: T1\nstatus: FIRST\n```\nmore\n```\nagent: architect\ntask_id: T1\nstatus: SECOND\n```\n"

/-- Agent output with only legacy free-text matches, the later one from a
different pattern family than the earlier one. -/
def legacyOutput : String :=
  "intro\nREADY_FOR_DEVELOPMENT now\nlater TESTING_COMPLETE\n"

/-- Claim C4 witness: the second block's status wins; with no block, the
positionally later legacy match wins across pattern families. -/
theorem extractor_last_match_witness :
    (wellFormedStatuses (splitOnChar '\n' (trailingWindow twoBlockOutput.data)) ≠ []) ∧
    extract_status twoBlockOutput = some "SECOND" ∧
    (wellFormedStatuses (splitOnChar '\n' (trailingWindow legacyOutput.data)) = []) ∧
    extract_status legacyOutput = some "TESTING_COMPLETE" := by
  refine ⟨by decide, ?_, by decide, ?_⟩
  · rw [(extractor_last_match twoBlockOutput).1 (by decide)]
    decide
  · rw [(extractor_last_match legacyOutput).2.1 (by decide)]
    decide

/-- A transition whose non-empty `next_step` matches no seen name and no
later step's agent produces exactly its error message. -/
theorem transitionErrors_dangling (i : Nat) (names : List String)
    (rest : List WorkflowStep) (status_name : String) (t : StepTransition)
    (a : String) (hns : t.next_step = some a) (hne : a ≠ "")
    (hnames : ∀ n ∈ names, n ≠ a) (hrest : ∀ s ∈ rest, s.agent ≠ a) :
    transitionErrors i names rest status_name t =
      ["Step " ++ toString i ++ ": transition '" ++ status_name ++
       "' references unknown agent '" ++ a ++ "'"] := by
  have hmem : a ∉ names := fun hmemb => (hnames a hmemb) rfl
  have hany : rest.any (fun s => s.agent = a) = false := by
    simp only [List.any_eq_false, decide_eq_true_eq]
    exact hrest
  simp only [transitionErrors, hns, if_neg hne, if_neg hmem, hany]
  simp

/-- The step loop reports at least one error when some step's transition
names a non-empty agent that no step of the suffix carries and no
already-seen name equals. -/
theorem validateSteps_dangling (a : String) (hne : a ≠ "") :
    ∀ (steps : List WorkflowStep) (i : Nat) (names : List String),
    (∃ st ∈ steps, ∃ p ∈ st.on_status, p.2.next_step = some a) →
    (∀ n ∈ names, n ≠ a) →
    (∀ s ∈ steps, s.agent ≠ a) →
    ∃ msg, msg ∈ validateSteps i names steps := by
  intro steps
  induction steps with
  | nil =>
    intro i names hex
    simp at hex
  | cons hd tl ih =>
    intro i names hex hnames hnosteps
    have hhd : hd.agent ≠ a := hnosteps hd (by simp)
    have htl : ∀ s ∈ tl, s.agent ≠ a := fun s hs => hnosteps s (by simp [hs])
    have hnames' : ∀ n ∈ (if hd.agent = "" then names else hd.agent :: names),
        n ≠ a := by
      intro n hn
      by_cases hag : hd.agent = ""
      · rw [if_pos hag] at hn
        exact hnames n hn
      · rw [if_neg hag] at hn
        rcases List.mem_cons.mp hn with hn | hn
        · exact hn ▸ hhd
        · exact hnames n hn
    rcases hex with ⟨st, hst, p, hp, hpns⟩
    rcases List.mem_cons.mp hst with hst | hst
    · subst hst
      have hflat : ("Step " ++ toString i ++ ": transition '" ++ p.1 ++
          "' references unknown agent '" ++ a ++ "'") ∈
          (st.on_status.map (fun q =>
            transitionErrors i (if st.agent = "" then names else st.agent :: names)
              tl q.1 q.2)).flatten := by
        refine List.mem_flatten.mpr ⟨_, List.mem_map_of_mem _ hp, ?_⟩
        rw [transitionErrors_dangling i _ tl p.1 p.2 a hpns hne hnames' htl]
        simp
      refine ⟨"Step " ++ toString i ++ ": transition '" ++ p.1 ++
          "' references unknown agent '" ++ a ++ "'", ?_⟩
      rw [validateSteps]
      exact List.mem_append_left _ (List.mem_append_right _ hflat)
    · obtain ⟨msg, hmem⟩ := ih (i + 1) _ ⟨st, hst, p, hp, hpns⟩ hnames' htl
      refine ⟨msg, ?_⟩
      rw [validateSteps]
      exact List.mem_append_right _ hmem

/-- The step loop reports nothing when every step's fields are non-empty
and every transition's target is falsy, already seen, or the agent of a
step of the suffix. -/
theorem validateSteps_clean :
    ∀ (steps : List WorkflowStep) (i : Nat) (names : List String),
    (∀ s ∈ steps, s.agent ≠ "" ∧ s.input ≠ "" ∧ s.required_output ≠ "") →
    (∀ s ∈ steps, ∀ p ∈ s.on_status,
      p.2.next_step = none ∨ p.2.next_step = some "" ∨
      (∃ n ∈ names, p.2.next_step = some n) ∨
      (∃ s' ∈ steps, p.2.next_step = some s'.agent)) →
    validateSteps i names steps = [] := by
  intro steps
  induction steps with
  | nil =>
    intro i names _ _
    rfl
  | cons hd tl ih =>
    intro i names hc hres
    obtain ⟨hag, hin, hout⟩ := hc hd (by simp)
    have hnames' : (if hd.agent = "" then names else hd.agent :: names)
        = hd.agent :: names := if_neg hag
    rw [validateSteps, hnames']
    rw [if_neg hag, if_neg hin, if_neg hout]
    have htrans : (hd.on_status.map (fun q =>
        transitionErrors i (hd.agent :: names) tl q.1 q.2)).flatten = [] := by
      rw [List.flatten_eq_nil_iff]
      intro l hl
      rcases List.mem_map.mp hl with ⟨q, hq, hql⟩
      subst hql
      rcases hres hd (by simp) q hq with hn | hn | ⟨n, hnn, hn⟩ | ⟨s', hs', hn⟩
      · simp [transitionErrors, hn]
      · simp [transitionErrors, hn]
      · have : n ∈ hd.agent :: names := by simp [hnn]
        simp [transitionErrors, hn, this]
      · rcases List.mem_cons.mp hs' with hs' | hs'
        · subst hs'
          have : s'.agent ∈ s'.agent :: names := by simp
          by_cases hsa : s'.agent = ""
          · simp [transitionErrors, hn, hsa]
          · simp [transitionErrors, hn, this]
        · by_cases hsa : s'.agent = ""
          · simp [transitionErrors, hn, hsa]
          · have hany : tl.any (fun s => s.agent = s'.agent) = true := by
              simp only [List.any_eq_true, decide_eq_true_eq]
              exact ⟨s', hs', rfl⟩
            by_cases hmem : s'.agent ∈ hd.agent :: names
            · simp [transitionErrors, hn, hmem]
            · simp [transitionErrors, hn, hmem, hany]
    rw [htrans]
    have htl : validateSteps (i + 1) (hd.agent :: names) tl = [] := by
      refine ih (i + 1) (hd.agent :: names)
        (fun s hs => hc s (by simp [hs])) ?_
      intro s hs p hp
      rcases hres s (by simp [hs]) p hp with hn | hn | ⟨n, hnn, hn⟩ | ⟨s', hs', hn⟩
      · exact Or.inl hn
      · exact Or.inr (Or.inl hn)
      · exact Or.inr (Or.inr (Or.inl ⟨n, by simp [hnn], hn⟩))
      · rcases List.mem_cons.mp hs' with hs' | hs'
        · exact Or.inr (Or.inr (Or.inl ⟨s'.agent, by simp [hs'], hn⟩))
        · exact Or.inr (Or.inr (Or.inr ⟨s', hs', hn⟩))
    rw [htl]
    simp

/-- Claim C6 (amended): `validate_template` reports an error for every
transition whose non-null, *non-empty* `next_step` names an agent carried
by no step; and it returns the empty list exactly for templates with a
non-empty id, name and step list whose steps all have non-empty `agent`,
`input` and `required_output` and whose transitions' targets are null,
empty, or some step's agent. -/
theorem validate_template_spec (t : WorkflowTemplate) :
    ((∃ st ∈ t.steps, ∃ p ∈ st.on_status, ∃ a, p.2.next_step = some a ∧
        a ≠ "" ∧ ∀ s ∈ t.steps, s.agent ≠ a) →
      WorkflowService.validate_template t ≠ []) ∧
    (t.id ≠ "" → t.name ≠ "" → t.steps ≠ [] →
      (∀ s ∈ t.steps, s.agent ≠ "" ∧ s.input ≠ "" ∧ s.required_output ≠ "") →
      (∀ s ∈ t.steps, ∀ p ∈ s.on_status,
        p.2.next_step = none ∨ p.2.next_step = some "" ∨
        ∃ s' ∈ t.steps, p.2.next_step = some s'.agent) →
      WorkflowService.validate_template t = []) := by
  constructor
  · rintro ⟨st, hst, p, hp, a, hns, hne, hnosteps⟩
    obtain ⟨msg, hmem⟩ := validateSteps_dangling a hne t.steps 0 []
      ⟨st, hst, p, hp, hns⟩ (by intro n hn; simp at hn) hnosteps
    refine List.ne_nil_of_mem (a := msg) ?_
    rw [WorkflowService.validate_template]
    exact List.mem_append_right _ hmem
  · intro hid hname hsteps hc hres
    rw [WorkflowService.validate_template]
    rw [if_neg hid, if_neg hname, if_neg (by simpa [List.isEmpty_iff] using hsteps)]
    rw [validateSteps_clean t.steps 0 [] hc ?_]
    · rfl
    · intro s hs p hp
      rcases hres s hs p hp with hn | hn | ⟨s', hs', hn⟩
      · exact Or.inl hn
      · exact Or.inr (Or.inl hn)
      · exact Or.inr (Or.inr (Or.inr ⟨s', hs', hn⟩))

/-- A template with id and name set but no steps. -/
def noStepsTemplate : WorkflowTemplate :=
  { id := "wf", name := "Name", description := "d", steps := [] }

/-- Claim C6 counterexample: a template whose id and name are set and all
of whose (zero) steps satisfy every per-step condition vacuously — every
transition resolves cleanly — yet `validate_template` returns a non-empty
error list ("Workflow must have at least one step"). -/
theorem validate_template_counterexample :
    noStepsTemplate.id ≠ "" ∧ noStepsTemplate.name ≠ "" ∧
    (∀ s ∈ noStepsTemplate.steps,
      s.agent ≠ "" ∧ s.input ≠ "" ∧ s.required_output ≠ "" ∧
      ∀ p ∈ s.on_status, p.2.next_step = none ∨
        ∃ s' ∈ noStepsTemplate.steps, p.2.next_step = some s'.agent) ∧
    WorkflowService.validate_template noStepsTemplate ≠ [] := by
  refine ⟨by decide, by decide, ?_, by decide⟩
  intro s hs
  simp [noStepsTemplate] at hs

/-- A step whose transition references an agent carried by no step. -/
def danglingStep : WorkflowStep :=
  { agent := "a", input := "i", required_output := "o"
    on_status := [("S", { name := "S", next_step := some "ghost" })] }

/-- A template with a dangling transition reference. -/
def danglingTemplate : WorkflowTemplate :=
  { id := "w", name := "n", description := "d", steps := [danglingStep] }

/-- Claim C6 witness: the dangling-reference template yields errors and
the clean two-step template yields none. -/
theorem validate_template_spec_witness :
    WorkflowService.validate_template danglingTemplate ≠ [] ∧
    WorkflowService.validate_template haltTemplate = [] := by
  constructor
  · refine (validate_template_spec danglingTemplate).1
      ⟨danglingStep, by decide,
        ("S", { name := "S", next_step := some "ghost" }), by decide,
        "ghost", by decide, by decide, ?_⟩
    intro s hs
    rcases List.mem_cons.mp hs with hs | hs
    · subst hs
      decide
    · simp [danglingTemplate] at hs
  · refine (validate_template_spec haltTemplate).2 (by decide) (by decide)
      (by decide) ?_ ?_
    · intro s hs
      rcases List.mem_cons.mp hs with hs | hs
      · subst hs
        exact ⟨by decide, by decide, by decide⟩
      · rcases List.mem_cons.mp hs with hs | hs
        · subst hs
          exact ⟨by decide, by decide, by decide⟩
        · simp [haltTemplate] at hs
    · intro s hs p hp
      refine Or.inr (Or.inr ⟨{ haltStep with agent := "b" }, by simp [haltTemplate], ?_⟩)
      rcases List.mem_cons.mp hs with hs | hs
      · subst hs
        rcases List.mem_cons.mp hp with hp | hp
        · subst hp
          decide
        · simp [haltStep] at hp
      · rcases List.mem_cons.mp hs with hs | hs
        · subst hs
          rcases List.mem_cons.mp hp with hp | hp
          · subst hp
            decide
          · simp [haltStep] at hp
        · simp [haltTemplate] at hs

/-- `rstrip("Z")` undoes a single appended `"Z"` on a string that does not
already end in `'Z'`. -/
theorem rstripZ_append (s : String) (h : s.data.getLast? ≠ some 'Z') :
    rstripZ (s ++ "Z") = s := by
  have hdata : (s ++ "Z").data = s.data ++ ['Z'] := String.data_append s "Z"
  have hdrop : s.data.reverse.dropWhile (fun c => c = 'Z') = s.data.reverse := by
    cases hr : s.data.reverse with
    | nil => rfl
    | cons c rest =>
      have hc : c ≠ 'Z' := by
        intro hcz
        apply h
        rw [← List.head?_reverse, hr, hcz]
        rfl
      rw [List.dropWhile_cons_of_neg (by simpa using hc)]
  rw [rstripZ, hdata]
  rw [show (s.data ++ ['Z']).reverse = 'Z' :: s.data.reverse by simp]
  rw [List.dropWhile_cons_of_pos (by simp), hdrop, List.reverse_reverse]

/-- The enum constructor inverts `value` for `TaskStatus`. -/
theorem statusOfValue_value (s : TaskStatus) :
    TaskStatus.ofValue s.value = some s := by
  cases s <;> rfl

/-- The enum constructor inverts `value` for `TaskPriority`. -/
theorem priorityOfValue_value (p : TaskPriority) :
    TaskPriority.ofValue p.value = some p := by
  cases p <;> rfl

/-- `readOptStr` inverts the optional-string JSON image. -/
theorem readOptStr_eq (j : JVal) (key : String) (o : Option String)
    (h : j.get key = some (optStrJ o)) : readOptStr j key = o := by
  cases o with
  | none => simp only [readOptStr, h, optStrJ]
  | some s => simp only [readOptStr, h, optStrJ]

/-- `readOptInt` inverts the optional-int JSON image. -/
theorem readOptInt_eq (j : JVal) (key : String) (o : Option Int)
    (h : j.get key = some (optIntJ o)) : readOptInt j key = o := by
  cases o with
  | none => simp only [readOptInt, h, optIntJ]
  | some n => simp only [readOptInt, h, optIntJ]

/-- A string with `"Z"` appended is never empty. -/
theorem append_Z_ne_empty (d : String) : d ++ "Z" ≠ "" := by
  intro hcontra
  have hd : (d ++ "Z").data = [] := by rw [hcontra]
  rw [String.data_append] at hd
  simp at hd

/-- `readOptDate` inverts the optional-timestamp JSON image on valid
isoformat strings. -/
theorem readOptDate_eq (j : JVal) (key : String) (o : Option DT)
    (h : j.get key = some (optDateJ o)) (hv : ∀ d, o = some d → validIso d) :
    readOptDate j key = o := by
  cases o with
  | none => simp only [readOptDate, h, optDateJ]
  | some d =>
    have hd := hv d rfl
    simp only [readOptDate, h, optDateJ, if_neg (append_Z_ne_empty d)]
    rw [rstripZ_append d hd.2]

/-- Reading back a list of string JSON values recovers the list. -/
theorem filterMap_asStr_map_jstr (l : List String) :
    (l.map JVal.jstr).filterMap JVal.asStr = l := by
  induction l with
  | nil => rfl
  | cons hd tl ih => simp [List.filterMap_cons, JVal.asStr, ih]

/-- Modelled-metadata persistence round trip. -/
theorem metadata_roundtrip (m : TaskMetadata) :
    TaskMetadata.from_dict m.to_dict = m := by
  have h1 : readOptStr m.to_dict "workflow_name" = m.workflow_name :=
    readOptStr_eq _ _ _ rfl
  have h2 : readOptInt m.to_dict "workflow_step" = m.workflow_step :=
    readOptInt_eq _ _ _ rfl
  have h3 : readOptStr m.to_dict "enhancement_title" = m.enhancement_title :=
    readOptStr_eq _ _ _ rfl
  have h4 : readOptStr m.to_dict "requested_model" = m.requested_model :=
    readOptStr_eq _ _ _ rfl
  have h5 : readOptStr m.to_dict "session_id" = m.session_id :=
    readOptStr_eq _ _ _ rfl
  have h6 : readOptStr m.to_dict "process_id" = m.process_id :=
    readOptStr_eq _ _ _ rfl
  have h7 : readOptStr m.to_dict "cost_usd" = m.cost_usd :=
    readOptStr_eq _ _ _ rfl
  have h8 : (match m.to_dict.get "learning_ids" with
      | some (.jarr xs) => xs.filterMap JVal.asStr
      | _ => []) = m.learning_ids := by
    rw [show m.to_dict.get "learning_ids"
        = some (.jarr (m.learning_ids.map .jstr)) from rfl]
    exact filterMap_asStr_map_jstr m.learning_ids
  simp only [TaskMetadata.from_dict, h1, h2, h3, h4, h5, h6, h7, h8]

/-- Task persistence round trip, under the isoformat shape of the
timestamp strings. -/
theorem task_roundtrip (t : Task) (hc : validIso t.created)
    (hs : ∀ d, t.started = some d → validIso d)
    (hcp : ∀ d, t.completed = some d → validIso d) :
    Task.from_dict t.to_dict = some t := by
  have hid : (t.to_dict.get "id").bind JVal.asStr = some t.id := rfl
  have hti : (t.to_dict.get "title").bind JVal.asStr = some t.title := rfl
  have hag : (t.to_dict.get "assigned_agent").bind JVal.asStr
      = some t.assigned_agent := rfl
  have hpr : ((t.to_dict.get "priority").bind JVal.asStr).bind TaskPriority.ofValue
      = some t.priority := by
    show TaskPriority.ofValue t.priority.value = some t.priority
    exact priorityOfValue_value t.priority
  have htt : (t.to_dict.get "task_type").bind JVal.asStr = some t.task_type := rfl
  have hde : (t.to_dict.get "description").bind JVal.asStr
      = some t.description := rfl
  have hsf : (t.to_dict.get "source_file").bind JVal.asStr
      = some t.source_file := rfl
  have hcr : (t.to_dict.get "created").bind JVal.asStr
      = some (t.created ++ "Z") := rfl
  have hst : ((t.to_dict.get "status").bind JVal.asStr).bind TaskStatus.ofValue
      = some t.status := by
    show TaskStatus.ofValue t.status.value = some t.status
    exact statusOfValue_value t.status
  have hsd : readOptDate t.to_dict "started" = t.started :=
    readOptDate_eq _ _ _ rfl hs
  have hcd : readOptDate t.to_dict "completed" = t.completed :=
    readOptDate_eq _ _ _ rfl hcp
  have hre : readOptStr t.to_dict "result" = t.result :=
    readOptStr_eq _ _ _ rfl
  have hacm : ((t.to_dict.get "auto_complete").bind JVal.asBool).getD false
      = t.auto_complete := rfl
  have hach : ((t.to_dict.get "auto_chain").bind JVal.asBool).getD false
      = t.auto_chain := rfl
  have hme : TaskMetadata.from_dict ((t.to_dict.get "metadata").getD (.jobj []))
      = t.metadata := by
    show TaskMetadata.from_dict t.metadata.to_dict = t.metadata
    exact metadata_roundtrip t.metadata
  have hrz : rstripZ (t.created ++ "Z") = t.created := rstripZ_append _ hc.2
  simp only [Task.from_dict, hid, hti, hag, hpr, htt, hde, hsf, hcr, hst,
    hsd, hcd, hre, hacm, hach, hme, Option.some_bind]
  simp [hrz]

/-- Transition persistence round trip, from its own `on_status` key, when
the optional description is not the empty string. -/
theorem transition_roundtrip (tr : StepTransition) (hd : tr.description ≠ some "") :
    StepTransition.from_dict tr.name tr.to_dict = tr := by
  obtain ⟨n, ns, ac, au, d⟩ := tr
  cases ns <;> cases d <;>
    simp_all [StepTransition.to_dict, StepTransition.from_dict, strTruthy,
      optStrJ, readOptStr, JVal.get, lookupField, JVal.asBool]

/-- Step persistence round trip, when the optional model is not the empty
string and each transition's name matches its `on_status` key and has no
empty-string description. -/
theorem step_roundtrip (s : WorkflowStep) (hm : s.model ≠ some "")
    (ht : ∀ p ∈ s.on_status, p.2.name = p.1 ∧ p.2.description ≠ some "") :
    WorkflowStep.from_dict s.to_dict = some s := by
  have hos : readTransitions s.to_dict = s.on_status := by
    have hget : s.to_dict.get "on_status"
        = some (.jobj (s.on_status.map (fun p => (p.1, p.2.to_dict)))) := by
      cases hmo : s.model with
      | none =>
        simp [WorkflowStep.to_dict, hmo, strTruthy, JVal.get, lookupField]
      | some m =>
        simp [WorkflowStep.to_dict, hmo, strTruthy, JVal.get, lookupField]
    simp only [readTransitions, hget, List.map_map]
    have hcg : ∀ p ∈ s.on_status,
        ((fun p => (p.1, StepTransition.from_dict p.1 p.2)) ∘
          (fun p => (p.1, p.2.to_dict))) p = id p := by
      intro p hp
      obtain ⟨hname, hdesc⟩ := ht p hp
      have : StepTransition.from_dict p.1 p.2.to_dict = p.2 := by
        rw [← hname]
        exact transition_roundtrip p.2 hdesc
      simp [Function.comp, this]
    rw [List.map_congr_left hcg, List.map_id]
  have hagent : (s.to_dict.get "agent").bind JVal.asStr = some s.agent := rfl
  have hinput : (s.to_dict.get "input").bind JVal.asStr = some s.input := rfl
  have hro : (s.to_dict.get "required_output").bind JVal.asStr
      = some s.required_output := rfl
  have hmo : readOptStr s.to_dict "model" = s.model := by
    cases hmv : s.model with
    | none =>
      simp [WorkflowStep.to_dict, hmv, strTruthy, readOptStr, JVal.get,
        lookupField]
    | some m =>
      have hmne : m ≠ "" := by
        intro hcontra
        exact hm (by rw [hmv, hcontra])
      simp [WorkflowStep.to_dict, hmv, strTruthy, hmne, readOptStr, JVal.get,
        lookupField]
  simp only [WorkflowStep.from_dict, hagent, hinput, hro, hos, hmo,
    Option.some_bind]
  simp

/-- `mapM` of the parser over serialized steps recovers the steps. -/
theorem mapM_from_to (l : List WorkflowStep)
    (h : ∀ s ∈ l, WorkflowStep.from_dict s.to_dict = some s) :
    (l.map WorkflowStep.to_dict).mapM WorkflowStep.from_dict = some l := by
  induction l with
  | nil => rfl
  | cons hd tl ih =>
    rw [List.map_cons, List.mapM_cons, h hd (by simp),
      ih (fun s hs => h s (by simp [hs]))]
    rfl

/-- Workflow-template persistence round trip under the step-level
hypotheses. -/
theorem template_roundtrip (w : WorkflowTemplate)
    (h : ∀ s ∈ w.steps, s.model ≠ some "" ∧
      ∀ p ∈ s.on_status, p.2.name = p.1 ∧ p.2.description ≠ some "") :
    WorkflowTemplate.from_json w.to_json = some w := by
  have hsteps : readSteps w.to_dict = some w.steps := by
    rw [show readSteps w.to_dict
        = (w.steps.map WorkflowStep.to_dict).mapM WorkflowStep.from_dict from rfl]
    exact mapM_from_to w.steps
      (fun s hs => step_roundtrip s (h s hs).1 (h s hs).2)
  have hname : (w.to_dict.get "name").bind JVal.asStr = some w.name := rfl
  have hdesc : (w.to_dict.get "description").bind JVal.asStr
      = some w.description := rfl
  show WorkflowTemplate.from_dict w.id w.to_dict = some w
  simp only [WorkflowTemplate.from_dict, hsteps, hname, hdesc, Option.some_bind]
  simp

/-- Claim C8 (amended): Task and WorkflowTemplate persistence round-trips
reproduce every field, provided the timestamps have isoformat shape
(non-empty, no trailing `'Z'`), each transition's `name` equals its
`on_status` key, and no optional `description`/`model` holds the empty
string — an empty string there serializes as omitted and reloads as
absent. -/
theorem persistence_roundtrip (t : Task) (w : WorkflowTemplate)
    (hc : validIso t.created)
    (hs : ∀ d, t.started = some d → validIso d)
    (hcp : ∀ d, t.completed = some d → validIso d)
    (hw : ∀ s ∈ w.steps, s.model ≠ some "" ∧
      ∀ p ∈ s.on_status, p.2.name = p.1 ∧ p.2.description ≠ some "") :
    Task.from_dict t.to_dict = some t ∧
    WorkflowTemplate.from_json w.to_json = some w :=
  ⟨task_roundtrip t hc hs hcp, template_roundtrip w hw⟩

/-- A transition carrying an empty-string description. -/
def emptyDescTransition : StepTransition :=
  { name := "S", next_step := some "b", description := some "" }

/-- A step holding the empty-description transition. -/
def emptyDescStep : WorkflowStep :=
  { agent := "a", input := "i", required_output := "o"
    on_status := [("S", emptyDescTransition)] }

/-- A template holding the empty-description step. -/
def emptyDescTemplate : WorkflowTemplate :=
  { id := "w", name := "n", description := "d", steps := [emptyDescStep] }

/-- Claim C8 counterexample: a template whose transition has
`description = ""` does not round-trip — `to_dict` omits the falsy field,
so it reloads as `None`, not `""`. -/
theorem persistence_roundtrip_counterexample :
    WorkflowTemplate.from_json emptyDescTemplate.to_json
      ≠ some emptyDescTemplate := by
  decide

/-- Claim C8 witness: the round trips at a concrete task and template. -/
theorem persistence_roundtrip_witness :
    Task.from_dict sampleTask.to_dict = some sampleTask ∧
    WorkflowTemplate.from_json haltTemplate.to_json = some haltTemplate := by
  refine persistence_roundtrip sampleTask haltTemplate ⟨by decide, by decide⟩
    ?_ ?_ ?_
  · intro d hd
    simp [sampleTask, addTask] at hd
  · intro d hd
    simp [sampleTask, addTask] at hd
  · intro s hs
    rcases List.mem_cons.mp hs with hs | hs
    · subst hs
      refine ⟨by decide, ?_⟩
      intro p hp
      rcases List.mem_cons.mp hp with hp | hp
      · subst hp
        exact ⟨by decide, by decide⟩
      · simp [haltStep] at hp
    · rcases List.mem_cons.mp hs with hs | hs
      · subst hs
        refine ⟨by decide, ?_⟩
        intro p hp
        rcases List.mem_cons.mp hp with hp | hp
        · subst hp
          exact ⟨by decide, by decide⟩
        · simp [haltStep] at hp
      · simp [haltTemplate] at hs

end CMAT
